import Mathlib

/-!
Verification development for `tractseg/models/Old_1/UNet_Multilabel_diceLoss.py`.

The Python source builds a lasagne/theano U-Net: `get_UNet` assembles an
insertion-ordered mapping from stage name to layer, and `create_network` wires
symbolic inputs, the Dice-based loss, the Adamax update and the compiled
train / predict / probability functions around it.  This file gives a shallow
embedding of that construction: the layer graph is a list of named layer
descriptions, lasagne's static shape inference is a function over that list,
tensors are (shape, index-function) pairs over `ℚ`, and the compiled theano
functions are records holding an output expression and an optional update map.
External library internals that the source only calls (layer arithmetic,
weight initialisation, the Adamax rule, the dropout mask) are universally
quantified through a `Backend` record, so every theorem below holds for any
actual behaviour of those externals.
-/

namespace TractSeg

/-- Padding mode of a lasagne `Conv2DLayer`: the source passes `pad='same'` for
every 3x3 convolution and leaves the library default (valid, pad 0) for the
final 1x1 convolution `conv_5`. -/
inductive Pad
  | same
  | valid
deriving DecidableEq

/-- Nonlinearity attached to a layer: `L.nonlinearities.rectify` (the default
argument of `get_UNet`), `L.nonlinearities.sigmoid` (the `output_flat` stage),
or `None` (the `conv_5` stage). -/
inductive Nonlin
  | rectify
  | sigmoid
  | identity
deriving DecidableEq

/-- Stage names of the `OrderedDict` built by `get_UNet`, one constructor per
string key of the source (`net['input']`, `net['contr_1_1']`, ...), in source
spelling.  An enumeration stands in for the Python string keys. -/
inductive StageName
  | input
  | contr_1_1
  | contr_1_2
  | pool1
  | contr_2_1
  | contr_2_2
  | pool2
  | contr_3_1
  | contr_3_2
  | pool3
  | contr_4_1
  | contr_4_2
  | pool4
  | encode_1
  | encode_2
  | deconv1
  | concat1
  | expand_1_1
  | expand_1_2
  | deconv2
  | concat2
  | expand_2_1
  | expand_2_2
  | deconv3
  | concat3
  | expand_3_1
  | expand_3_2
  | deconv4
  | concat4
  | expand_4_1
  | expand_4_2
  | conv_5
  | dimshuffle
  | reshapeSeg
  | dimshuffle2
  | output_flat
  | output
deriving DecidableEq

/-- Reference to the input tensor of a layer: by stage name, or the bottleneck
`DropoutLayer` that the source holds only in the local variable `l`
(line `l = DropoutLayer(l, p=0.4)`), recorded with the name of the stage it
reads (`pool4`) and its rate. -/
inductive Ref
  | byName (s : StageName)
  | anonDropout (inp : StageName) (p : ℚ)
deriving DecidableEq

/-- One slot of a `ReshapeLayer` specification: a fixed extent or `-1`. -/
inductive RSpec
  | dim (n : Nat)
  | minusOne
deriving DecidableEq

/-- Static lasagne shape: one entry per axis, `none` for an unknown extent
(the unbound batch axis `BATCH_SIZE=None`). -/
abbrev LShape := List (Option Nat)

/-- The layer kinds that `get_UNet` instantiates, with the constructor
arguments the source passes. -/
inductive Layer
  | inputL (shape : LShape)
  | conv (inp : Ref) (num_filters : Nat) (filter_size : Nat)
      (nonlinearity : Nonlin) (pad : Pad)
  | pool (inp : Ref) (pool_size : Nat)
  | upscale (inp : Ref) (scale_factor : Nat)
  | concat (inps : List Ref)
  | dimshuffleL (inp : Ref) (pattern : List Nat)
  | reshapeL (inp : Ref) (spec : List RSpec)
  | nonlinL (inp : Ref) (nonlinearity : Nonlin)
deriving DecidableEq

/-- Output extent of a convolution along one axis (stride 1): lasagne pads
`filter_size / 2` on both sides for `pad='same'` and not at all for the
default valid mode. -/
def convOutDim (pad : Pad) (k : Nat) : Option Nat → Option Nat
  | some h =>
      match pad with
      | Pad.same => some (h + 2 * (k / 2) + 1 - k)
      | Pad.valid => some (h + 1 - k)
  | none => none

/-- Output extent of `Pool2DLayer` along one axis: stride defaults to the pool
size and `ignore_border` defaults to true, giving `(h - size) / size + 1`. -/
def poolOutDim (sz : Nat) : Option Nat → Option Nat
  | some h => some ((h - sz) / sz + 1)
  | none => none

/-- First-match lookup in an insertion-ordered mapping (the `OrderedDict`
access `net[name]` of the source). -/
def lookupName {α : Type} : List (StageName × α) → StageName → Option α
  | [], _ => none
  | e :: rest, s => if e.1 = s then some e.2 else lookupName rest s

/-- Static shape of the tensor a `Ref` denotes, given the shapes of the named
stages; the anonymous dropout layer preserves the shape of its input stage. -/
def refShapeE (env : List (StageName × LShape)) : Ref → Option LShape
  | Ref.byName s => lookupName env s
  | Ref.anonDropout s _ => lookupName env s

/-- Sum of two optionally-known extents (the channel axis of `ConcatLayer`). -/
def addDim : Option Nat → Option Nat → Option Nat
  | some a, some b => some (a + b)
  | _, _ => none

/-- Minimum of two optionally-known extents (center cropping of `ConcatLayer`
on the spatial axes). -/
def minDim : Option Nat → Option Nat → Option Nat
  | some a, some b => some (min a b)
  | _, _ => none

/-- Static shape of `ConcatLayer(inputs, cropping=(None, None, center, center))`
with the default concatenation axis 1: batch axes must agree, channel extents
add, spatial extents are center-cropped to the smaller input. -/
def concatShape : List LShape → Option LShape
  | [[b1, c1, h1, w1], [b2, c2, h2, w2]] =>
      if b1 = b2 then some [b1, addDim c1 c2, minDim h1 h2, minDim w1 w2]
      else none
  | _ => none

/-- Static shape of `DimshuffleLayer`: axis `i` of the output is axis
`pattern i` of the input. -/
def dimshuffleShape (s : LShape) (pattern : List Nat) : LShape :=
  pattern.map (fun i => (s.get? i).join)

/-- Product of a shape when every extent is known. -/
def knownProd : LShape → Option Nat
  | [] => some 1
  | none :: _ => none
  | some n :: rest => (knownProd rest).map (fun t => n * t)

/-- Product of the fixed extents of a reshape specification. -/
def rspecKnownProd (spec : List RSpec) : Nat :=
  (spec.map (fun r => match r with
    | RSpec.dim n => n
    | RSpec.minusOne => 1)).prod

/-- Static shape of `ReshapeLayer`: fixed slots are kept and the `-1` slot is
the remaining extent when the input size is fully known, unknown otherwise. -/
def reshapeShape (s : LShape) (spec : List RSpec) : LShape :=
  spec.map (fun r => match r with
    | RSpec.dim n => some n
    | RSpec.minusOne => (knownProd s).map (fun tot => tot / rspecKnownProd spec))

/-- Lasagne static output shape of one layer given the shapes of the stages
inserted before it. -/
def layerOutShape (env : List (StageName × LShape)) : Layer → Option LShape
  | Layer.inputL s => some s
  | Layer.conv r nf k _ pad =>
      (refShapeE env r).bind (fun s =>
        match s with
        | [b, _, h, w] => some [b, some nf, convOutDim pad k h, convOutDim pad k w]
        | _ => none)
  | Layer.pool r sz =>
      (refShapeE env r).bind (fun s =>
        match s with
        | [b, c, h, w] => some [b, c, poolOutDim sz h, poolOutDim sz w]
        | _ => none)
  | Layer.upscale r f =>
      (refShapeE env r).bind (fun s =>
        match s with
        | [b, c, h, w] => some [b, c, h.map (· * f), w.map (· * f)]
        | _ => none)
  | Layer.concat rs =>
      match rs.map (refShapeE env) with
      | [some s1, some s2] => concatShape [s1, s2]
      | _ => none
  | Layer.dimshuffleL r pat => (refShapeE env r).map (fun s => dimshuffleShape s pat)
  | Layer.reshapeL r spec => (refShapeE env r).map (fun s => reshapeShape s spec)
  | Layer.nonlinL r _ => refShapeE env r

/-- Worker for `netShapes`: extend the shape environment one stage at a time.
The environment lists the most recently inserted stage first; since stage
names are unique this is equivalent to insertion-order lookup. -/
def netShapesGo (env : List (StageName × LShape)) :
    List (StageName × Layer) → Option (List (StageName × LShape))
  | [] => some env
  | e :: rest =>
      match layerOutShape env e.2 with
      | some s => netShapesGo ((e.1, s) :: env) rest
      | none => none

/-- Static shapes of every stage of a layer graph (most recent stage first). -/
def netShapes (entries : List (StageName × Layer)) : Option (List (StageName × LShape)) :=
  netShapesGo [] entries

/-- Static shape of one named stage of a layer graph. -/
def shapeOfStage (entries : List (StageName × Layer)) (name : StageName) : Option LShape :=
  (netShapes entries).bind (fun m => lookupName m name)

/-- Spatial extents (axes 2 and 3) of one named stage. -/
def spatialOfStage (entries : List (StageName × Layer)) (name : StageName) :
    Option (Option Nat × Option Nat) :=
  (shapeOfStage entries name).bind (fun s =>
    match s with
    | [_, _, h, w] => some (h, w)
    | _ => none)

/-- Reshape slot built from one entry of `conv_5`'s static output shape
(`img_shape[i]` in the source, an `int` there since those extents are known). -/
def rdim (x : Option (Option Nat)) : RSpec :=
  match x with
  | some (some n) => RSpec.dim n
  | _ => RSpec.dim 0

/-- Entry `i` of the static shape of a stage. -/
def idxDim (s : Option LShape) (i : Nat) : Option (Option Nat) :=
  s.bind (fun l => l.get? i)

/-- Embedding of `UNet_Multilabel_diceLoss.get_UNet`: the insertion-ordered
layer mapping, one list entry per `net[...] = ...` assignment of the source,
in source order.  The bottleneck dropout (source: commented-out
`if do_dropout:` followed by an unconditional `l = DropoutLayer(l, p=0.4)`) is
not a named stage; it appears as the `Ref.anonDropout` input of `encode_1`.
The parameter `do_dropout` is accepted, as in the source, and never read. -/
def get_UNet (n_input_channels : Nat) (BATCH_SIZE : Option Nat)
    (num_output_classes : Nat) (pad : Pad) (nonlinearity : Nonlin)
    (input_dim : Nat × Nat) (base_n_filters : Nat) (do_dropout : Bool) :
    List (StageName × Layer) :=
  let front : List (StageName × Layer) :=
    [(StageName.input, Layer.inputL
        [BATCH_SIZE, some n_input_channels, some input_dim.1, some input_dim.2]),
     (StageName.contr_1_1, Layer.conv (Ref.byName StageName.input) base_n_filters 3 nonlinearity pad),
     (StageName.contr_1_2, Layer.conv (Ref.byName StageName.contr_1_1) base_n_filters 3 nonlinearity pad),
     (StageName.pool1, Layer.pool (Ref.byName StageName.contr_1_2) 2),
     (StageName.contr_2_1, Layer.conv (Ref.byName StageName.pool1) (base_n_filters * 2) 3 nonlinearity pad),
     (StageName.contr_2_2, Layer.conv (Ref.byName StageName.contr_2_1) (base_n_filters * 2) 3 nonlinearity pad),
     (StageName.pool2, Layer.pool (Ref.byName StageName.contr_2_2) 2),
     (StageName.contr_3_1, Layer.conv (Ref.byName StageName.pool2) (base_n_filters * 4) 3 nonlinearity pad),
     (StageName.contr_3_2, Layer.conv (Ref.byName StageName.contr_3_1) (base_n_filters * 4) 3 nonlinearity pad),
     (StageName.pool3, Layer.pool (Ref.byName StageName.contr_3_2) 2),
     (StageName.contr_4_1, Layer.conv (Ref.byName StageName.pool3) (base_n_filters * 8) 3 nonlinearity pad),
     (StageName.contr_4_2, Layer.conv (Ref.byName StageName.contr_4_1) (base_n_filters * 8) 3 nonlinearity pad),
     (StageName.pool4, Layer.pool (Ref.byName StageName.contr_4_2) 2),
     (StageName.encode_1, Layer.conv (Ref.anonDropout StageName.pool4 (2 / 5)) (base_n_filters * 16) 3 nonlinearity pad),
     (StageName.encode_2, Layer.conv (Ref.byName StageName.encode_1) (base_n_filters * 16) 3 nonlinearity pad),
     (StageName.deconv1, Layer.upscale (Ref.byName StageName.encode_2) 2),
     (StageName.concat1, Layer.concat [Ref.byName StageName.deconv1, Ref.byName StageName.contr_4_2]),
     (StageName.expand_1_1, Layer.conv (Ref.byName StageName.concat1) (base_n_filters * 8) 3 nonlinearity pad),
     (StageName.expand_1_2, Layer.conv (Ref.byName StageName.expand_1_1) (base_n_filters * 8) 3 nonlinearity pad),
     (StageName.deconv2, Layer.upscale (Ref.byName StageName.expand_1_2) 2),
     (StageName.concat2, Layer.concat [Ref.byName StageName.deconv2, Ref.byName StageName.contr_3_2]),
     (StageName.expand_2_1, Layer.conv (Ref.byName StageName.concat2) (base_n_filters * 4) 3 nonlinearity pad),
     (StageName.expand_2_2, Layer.conv (Ref.byName StageName.expand_2_1) (base_n_filters * 4) 3 nonlinearity pad),
     (StageName.deconv3, Layer.upscale (Ref.byName StageName.expand_2_2) 2),
     (StageName.concat3, Layer.concat [Ref.byName StageName.deconv3, Ref.byName StageName.contr_2_2]),
     (StageName.expand_3_1, Layer.conv (Ref.byName StageName.concat3) (base_n_filters * 2) 3 nonlinearity pad),
     (StageName.expand_3_2, Layer.conv (Ref.byName StageName.expand_3_1) (base_n_filters * 2) 3 nonlinearity pad),
     (StageName.deconv4, Layer.upscale (Ref.byName StageName.expand_3_2) 2),
     (StageName.concat4, Layer.concat [Ref.byName StageName.deconv4, Ref.byName StageName.contr_1_2]),
     (StageName.expand_4_1, Layer.conv (Ref.byName StageName.concat4) base_n_filters 3 nonlinearity pad),
     (StageName.expand_4_2, Layer.conv (Ref.byName StageName.expand_4_1) base_n_filters 3 nonlinearity pad),
     (StageName.conv_5, Layer.conv (Ref.byName StageName.expand_4_2) num_output_classes 1 Nonlin.identity Pad.valid)]
  let img_shape := shapeOfStage front StageName.conv_5
  front ++
    [(StageName.dimshuffle, Layer.dimshuffleL (Ref.byName StageName.conv_5) [1, 0, 2, 3]),
     (StageName.reshapeSeg, Layer.reshapeL (Ref.byName StageName.dimshuffle)
        [RSpec.dim num_output_classes, RSpec.minusOne]),
     (StageName.dimshuffle2, Layer.dimshuffleL (Ref.byName StageName.reshapeSeg) [1, 0]),
     (StageName.output_flat, Layer.nonlinL (Ref.byName StageName.dimshuffle2) Nonlin.sigmoid),
     (StageName.output, Layer.reshapeL (Ref.byName StageName.output_flat)
        [RSpec.minusOne, rdim (idxDim img_shape 2), rdim (idxDim img_shape 3),
         rdim (idxDim img_shape 1)])]

/-- Stage names referenced by a `Ref` (the anonymous dropout layer counts as a
reference to the stage it reads). -/
def refNames : Ref → List StageName
  | Ref.byName s => [s]
  | Ref.anonDropout s _ => [s]

/-- Stage names a layer's construction refers to. -/
def layerRefNames : Layer → List StageName
  | Layer.inputL _ => []
  | Layer.conv r _ _ _ _ => refNames r
  | Layer.pool r _ => refNames r
  | Layer.upscale r _ => refNames r
  | Layer.concat rs => (rs.map refNames).flatten
  | Layer.dimshuffleL r _ => refNames r
  | Layer.reshapeL r _ => refNames r
  | Layer.nonlinL r _ => refNames r

/-- Every layer of the list refers only to stage names inserted before it. -/
def wellOrderedGraph (seen : List StageName) : List (StageName × Layer) → Bool
  | [] => true
  | e :: rest =>
      (layerRefNames e.2).all (fun s => seen.contains s) &&
        wellOrderedGraph (e.1 :: seen) rest

/-- No stage name occurs twice (the list is a genuine mapping). -/
def namesUnique : List StageName → Bool
  | [] => true
  | n :: rest => !rest.contains n && namesUnique rest

/-- Tensor value: a shape together with a total index function (entries at
out-of-range indices are irrelevant).  Rationals stand in for the floats of
the numerical backend. -/
structure NDT where
  shape : List Nat
  data : List Nat → ℚ

/-- Sum of an indexed family over all index tuples of a shape. -/
def sumOver : List Nat → (List Nat → ℚ) → ℚ
  | [], f => f []
  | n :: rest, f => ∑ i ∈ Finset.range n, sumOver rest (fun idx => f (i :: idx))

/-- The `T.mean` of a tensor: sum of all entries over the number of entries. -/
def Tmean (t : NDT) : ℚ :=
  sumOver t.shape t.data / (t.shape.prod : ℚ)

/-- The `.dimshuffle((0, 3, 1, 2))` of a 4-D tensor, taking the channel-last
output `(bs, x, y, nrClasses)` to the channel-first layout `(bs, nrClasses,
x, y)` used by the dice computation. -/
def dimshuffle_0_3_1_2 (t : NDT) : NDT :=
  ⟨[t.shape.getD 0 0, t.shape.getD 3 0, t.shape.getD 1 0, t.shape.getD 2 0],
   fun idx =>
     match idx with
     | [i, j, a, d] => t.data [i, a, d, j]
     | _ => 0⟩

/-- Modelled from the spec: the continuous per-instance per-class Dice score of
`libs.Layers.theano_binary_dice_per_instance_and_class_for_loss`, whose source
file is not under `src/`.  Following the spec's formula `2·|A∩B| / (|A|+|B|)`
with probabilities in place of thresholded masks, for instance `i` and class
`j` of `(bs, nrClasses, x, y)` tensors, summing over the `dim = 2` spatial
axes starting at `first_spatial_axis = 2` as at both call sites.  Rational
division makes the `0/0` of two empty masks equal `0`. -/
def diceContinuousAt (y_pred y_true : NDT) (i j : Nat) : ℚ :=
  let h := y_pred.shape.getD 2 0
  let w := y_pred.shape.getD 3 0
  2 * (∑ a ∈ Finset.range h, ∑ d ∈ Finset.range w,
        y_pred.data [i, j, a, d] * y_true.data [i, j, a, d]) /
    ((∑ a ∈ Finset.range h, ∑ d ∈ Finset.range w, y_pred.data [i, j, a, d]) +
     (∑ a ∈ Finset.range h, ∑ d ∈ Finset.range w, y_true.data [i, j, a, d]))

/-- Modelled from the spec: the `(bs, nrClasses)` tensor of continuous Dice
scores (`theano_binary_dice_per_instance_and_class_for_loss` of
`libs/Layers.py`, not under `src/`). -/
def theano_binary_dice_per_instance_and_class_for_loss (y_pred y_true : NDT) : NDT :=
  ⟨[y_pred.shape.getD 0 0, y_pred.shape.getD 1 0],
   fun idx =>
     match idx with
     | [i, j] => diceContinuousAt y_pred y_true i j
     | _ => 0⟩

/-- Thresholding of a probability for the hard Dice variant. -/
def Tround (x : ℚ) : ℚ :=
  if 1 / 2 ≤ x then 1 else 0

/-- Modelled from the spec: the hard/thresholded per-instance per-class Dice
score (`theano_binary_dice_per_instance_and_class` of `libs/Layers.py`, not
under `src/`): the same formula on the thresholded prediction. -/
def theano_binary_dice_per_instance_and_class (y_pred y_true : NDT) : NDT :=
  theano_binary_dice_per_instance_and_class_for_loss
    ⟨y_pred.shape, fun idx => Tround (y_pred.data idx)⟩ y_true

/-- The `(bs, nrClasses)` hard Dice matrix of the train graph
(`dice_scores_train` in the source), as a function of the training-mode
`output` tensor and the label tensor `y_sym`. -/
def dice_scores_train (output_train y_sym : NDT) : NDT :=
  theano_binary_dice_per_instance_and_class (dimshuffle_0_3_1_2 output_train) y_sym

/-- `f1_train`: mean over batches and classes of the hard train Dice. -/
def f1_train (output_train y_sym : NDT) : ℚ :=
  Tmean (dice_scores_train output_train y_sym)

/-- `dice_scores_train_continuous` of the source. -/
def dice_scores_train_continuous (output_train y_sym : NDT) : NDT :=
  theano_binary_dice_per_instance_and_class_for_loss
    (dimshuffle_0_3_1_2 output_train) y_sym

/-- `f1_train_continuous`: mean over batches and classes of the continuous
train Dice. -/
def f1_train_continuous (output_train y_sym : NDT) : ℚ :=
  Tmean (dice_scores_train_continuous output_train y_sym)

/-- `loss_train = 1 - f1_train_continuous` (source line 143). -/
def loss_train (output_train y_sym : NDT) : ℚ :=
  1 - f1_train_continuous output_train y_sym

/-- `dice_scores_test` of the source. -/
def dice_scores_test (output_test y_sym : NDT) : NDT :=
  theano_binary_dice_per_instance_and_class (dimshuffle_0_3_1_2 output_test) y_sym

/-- `f1_test` of the source. -/
def f1_test (output_test y_sym : NDT) : ℚ :=
  Tmean (dice_scores_test output_test y_sym)

/-- `dice_scores_test_continuous` of the source. -/
def dice_scores_test_continuous (output_test y_sym : NDT) : NDT :=
  theano_binary_dice_per_instance_and_class_for_loss
    (dimshuffle_0_3_1_2 output_test) y_sym

/-- `f1_test_continuous` of the source. -/
def f1_test_continuous (output_test y_sym : NDT) : ℚ :=
  Tmean (dice_scores_test_continuous output_test y_sym)

/-- `loss_test = 1 - f1_test_continuous` (source line 144). -/
def loss_test (output_test y_sym : NDT) : ℚ :=
  1 - f1_test_continuous output_test y_sym

/-- Spec-side formula, written independently of the code path: the continuous
per-instance per-class Dice score read directly off the channel-last output
tensor `(bs, x, y, nrClasses)` and the channel-first label tensor
`(bs, nrClasses, x, y)`, without the dimshuffle step. -/
def specDiceContinuous (output y : NDT) (i j : Nat) : ℚ :=
  let h := output.shape.getD 1 0
  let w := output.shape.getD 2 0
  2 * (∑ a ∈ Finset.range h, ∑ d ∈ Finset.range w,
        output.data [i, a, d, j] * y.data [i, j, a, d]) /
    ((∑ a ∈ Finset.range h, ∑ d ∈ Finset.range w, output.data [i, a, d, j]) +
     (∑ a ∈ Finset.range h, ∑ d ∈ Finset.range w, y.data [i, j, a, d]))

/-- Spec-side formula: the mean over the batch axis and the class axis of the
continuous per-instance per-class Dice scores. -/
def specMeanContinuousDice (output y : NDT) : ℚ :=
  (∑ i ∈ Finset.range (output.shape.getD 0 0),
     ∑ j ∈ Finset.range (output.shape.getD 3 0), specDiceContinuous output y i j) /
    ((output.shape.getD 0 0 : ℚ) * (output.shape.getD 3 0 : ℚ))

/-- The state of `numpy.random.RandomState` / lasagne's global random source,
abstracted to its seed history. -/
structure RngState where
  seed : Nat
deriving DecidableEq

/-- `np.random.RandomState(n)`. -/
def mkRandomState (n : Nat) : RngState :=
  ⟨n⟩

/-- One parameter array of the graph (a theano shared variable): its shape and
its values, flattened. -/
structure PValue where
  shape : List Nat
  data : List ℚ
deriving DecidableEq

/-- The ordered list of parameter arrays of the graph, as enumerated by
`lasagne.layers.get_all_params`. -/
abbrev ParamStore := List PValue

/-- The external numerical backend (theano / lasagne internals that the source
only calls, with no implementation in this repository): the numeric action of
the deterministic layers, the stochastic dropout mask, the parameter
initialiser consuming the seeded random source, and the Adamax update rule.
Theorems quantify over this record, so they hold for any actual backend. -/
structure Backend where
  layerF : Layer → ParamStore → List NDT → NDT
  dropoutF : RngState → ℚ → NDT → NDT
  initF : RngState → List (StageName × Layer) → ParamStore
  adamaxF : ParamStore → NDT × NDT → ℚ → ParamStore

/-- Value of a named stage in a forward-pass environment. -/
def envLookupV (env : List (StageName × NDT)) (s : StageName) : NDT :=
  (lookupName env s).getD ⟨[], fun _ => 0⟩

/-- Value of the tensor a `Ref` denotes during a forward pass: the anonymous
bottleneck dropout is the identity in deterministic (inference) mode and
applies the backend's mask in training mode. -/
def resolveRefV (B : Backend) (deterministic : Bool) (rng : RngState)
    (env : List (StageName × NDT)) : Ref → NDT
  | Ref.byName s => envLookupV env s
  | Ref.anonDropout s rate =>
      if deterministic then envLookupV env s
      else B.dropoutF rng rate (envLookupV env s)

/-- Input tensors of a layer during a forward pass. -/
def layerInputsV (B : Backend) (deterministic : Bool) (rng : RngState)
    (env : List (StageName × NDT)) : Layer → List NDT
  | Layer.inputL _ => []
  | Layer.conv r _ _ _ _ => [resolveRefV B deterministic rng env r]
  | Layer.pool r _ => [resolveRefV B deterministic rng env r]
  | Layer.upscale r _ => [resolveRefV B deterministic rng env r]
  | Layer.concat rs => rs.map (resolveRefV B deterministic rng env)
  | Layer.dimshuffleL r _ => [resolveRefV B deterministic rng env r]
  | Layer.reshapeL r _ => [resolveRefV B deterministic rng env r]
  | Layer.nonlinL r _ => [resolveRefV B deterministic rng env r]

/-- Forward value of one layer: the input layer yields the fed tensor `X`,
every other layer applies the backend's numeric action to its inputs. -/
def evalLayerV (B : Backend) (deterministic : Bool) (rng : RngState)
    (p : ParamStore) (X : NDT) (env : List (StageName × NDT)) (l : Layer) : NDT :=
  match l with
  | Layer.inputL _ => X
  | _ => B.layerF l p (layerInputsV B deterministic rng env l)

/-- Forward-pass environment over the layer list (most recent stage first). -/
def get_output_env (B : Backend) (deterministic : Bool) (rng : RngState)
    (p : ParamStore) (X : NDT) (env : List (StageName × NDT)) :
    List (StageName × Layer) → List (StageName × NDT)
  | [] => env
  | e :: rest =>
      get_output_env B deterministic rng p X
        ((e.1, evalLayerV B deterministic rng p X env e.2) :: env) rest

/-- Embedding of `L.layers.get_output(stage, X_sym, deterministic=...)`: the
forward value of one stage of the graph. -/
def get_output (B : Backend) (net : List (StageName × Layer)) (stage : StageName)
    (X : NDT) (deterministic : Bool) (rng : RngState) (p : ParamStore) : NDT :=
  envLookupV (get_output_env B deterministic rng p X [] net) stage

/-- A compiled `theano.function`: the output expression evaluated on the
current parameter store and the call arguments, and the optional update map
(`updates=...`) applied to the store as a side effect of each call. -/
structure TheanoFn (I O : Type) where
  outExpr : ParamStore → I → O
  updates : Option (ParamStore → I → ParamStore)

/-- Calling a compiled function: returns its outputs and the parameter store
after the call (unchanged when no updates are attached). -/
def TheanoFn.call {I O : Type} (f : TheanoFn I O) (p : ParamStore) (x : I) :
    O × ParamStore :=
  (f.outExpr p x,
   match f.updates with
   | some u => u p x
   | none => p)

/-- The compiled `train_fn = theano.function([X_sym, y_sym], [loss_train,
prediction_train, f1_train], updates=updates)` (source line 154): training-mode
(`deterministic=False`) forward passes, with the Adamax update attached. -/
def train_fn (B : Backend) (rng : RngState) (net : List (StageName × Layer))
    (learning_rate : ℚ) : TheanoFn (NDT × NDT) (ℚ × NDT × ℚ) :=
  ⟨fun p Xy =>
     (loss_train (get_output B net StageName.output Xy.1 false rng p) Xy.2,
      get_output B net StageName.output_flat Xy.1 false rng p,
      f1_train (get_output B net StageName.output Xy.1 false rng p) Xy.2),
   some (fun p Xy => B.adamaxF p Xy learning_rate)⟩

/-- The compiled `predict_fn = theano.function([X_sym, y_sym], [loss_test,
prediction_test, f1_test])` (source line 155): inference-mode
(`deterministic=True`) forward passes and no `updates` argument. -/
def predict_fn (B : Backend) (rng : RngState) (net : List (StageName × Layer)) :
    TheanoFn (NDT × NDT) (ℚ × NDT × ℚ) :=
  ⟨fun p Xy =>
     (loss_test (get_output B net StageName.output Xy.1 true rng p) Xy.2,
      get_output B net StageName.output_flat Xy.1 true rng p,
      f1_test (get_output B net StageName.output Xy.1 true rng p) Xy.2),
   none⟩

/-- The compiled `get_probs = theano.function([X_sym], output_test)`. -/
def get_probs (B : Backend) (rng : RngState) (net : List (StageName × Layer)) :
    TheanoFn NDT NDT :=
  ⟨fun p X => get_output B net StageName.output X true rng p, none⟩

/-- Worker of `set_all_param_values`: walk the zipped (parameter, value)
lists, checking each shape and setting each parameter in turn.  A shape
mismatch raises after the earlier parameters have already been set, so the
returned store keeps the values set so far. -/
def set_param_loop : ParamStore → List PValue → ParamStore × Option String
  | [], _ => ([], none)
  | ps, [] => (ps, none)
  | prm :: ps, v :: vs =>
      if prm.shape ≠ v.shape then
        (prm :: ps, some "mismatch: parameter has a different shape than the value to set")
      else
        let r := set_param_loop ps vs
        (v :: r.1, r.2)

/-- Embedding of `lasagne.layers.set_all_param_values(layer, values)` as
called at source line 119: first the number of values is checked against the
number of parameters of the graph (trainable and non-trainable alike), then
each parameter is shape-checked and set sequentially.  The result is the
parameter store after the call and the raised error message, if any. -/
def set_all_param_values (params : ParamStore) (values : List PValue) :
    ParamStore × Option String :=
  if params.length ≠ values.length then
    (params, some "mismatch: got a different number of values than parameters")
  else set_param_loop params values

/-- Shapewise agreement of the archive with the parameter list: same length
and the same shape at every position. -/
def shapesAgree : ParamStore → List PValue → Bool
  | [], [] => true
  | prm :: ps, v :: vs => if prm.shape = v.shape then shapesAgree ps vs else false
  | _, _ => false

/-- The configuration fields of `self.HP` that `create_network` reads.  The
experiment/weight file paths are omitted: file input is out of scope and the
archive contents are passed to `create_network` directly. -/
structure HP where
  SEG_INPUT : String
  TYPE : String
  NR_OF_CLASSES : Nat
  RESOLUTION : String
  UNET_NR_FILT : Nat
  LOAD_WEIGHTS : Bool
  LEARNING_RATE : ℚ

/-- The `NR_OF_GRADIENTS` dispatch at the top of `create_network` (source
lines 91 to 98). -/
def NR_OF_GRADIENTS (hp : HP) : Nat :=
  if hp.SEG_INPUT == "Peaks" && hp.TYPE == "single_direction" then 9
  else if hp.SEG_INPUT == "Peaks" && hp.TYPE == "combined" then 3 * hp.NR_OF_CLASSES
  else 33

/-- The resolution dispatch of `create_network` (source lines 100 to 103):
an `if`/`elif` with no `else`, so an unrecognized tag leaves `input_dim`
unassigned. -/
def resolution_input_dim (res : String) : Option (Nat × Nat) :=
  if res == "1.25mm" then some (144, 144)
  else if res == "2mm" || res == "2.5mm" then some (80, 80)
  else none

/-- Python errors `create_network` can raise: the `UnboundLocalError` of
reading a never-assigned local, or the `ValueError` of the weight loader. -/
inductive PyError
  | nameError (v : String)
  | valueError (msg : String)
deriving DecidableEq

/-- The model state `create_network` exports on `self`: the parameter store,
the layer mapping, the compiled train / predict / probability functions and
the shared learning-rate scalar. -/
structure Model where
  params : ParamStore
  net : List (StageName × Layer)
  train : TheanoFn (NDT × NDT) (ℚ × NDT × ℚ)
  predict : TheanoFn (NDT × NDT) (ℚ × NDT × ℚ)
  get_probs : TheanoFn NDT NDT
  learning_rate : ℚ

/-- Embedding of `UNet_Multilabel_diceLoss.create_network`.  `archive` holds
the arrays `arr_0 ... arr_{n-1}` of the weight file (file input is external;
the contents are passed in), and `g` is the ambient numpy/lasagne global
random state before the call, which the source immediately overwrites with
`L.random.set_rng(np.random.RandomState(1))`.  The result pairs the build
outcome with the global random state after the call.  An unrecognized
resolution tag leaves `input_dim` unbound, which surfaces as an
`UnboundLocalError` when the `get_UNet` call reads it, before any layer is
built. -/
def create_network (B : Backend) (hp : HP) (archive : List PValue) (g : RngState) :
    Except PyError Model × RngState :=
  let dimOpt := resolution_input_dim hp.RESOLUTION
  let rng := mkRandomState 1
  let result : Except PyError Model :=
    match dimOpt with
    | none => Except.error (PyError.nameError "input_dim")
    | some input_dim =>
        let net := get_UNet (NR_OF_GRADIENTS hp) none hp.NR_OF_CLASSES Pad.same
          Nonlin.rectify input_dim hp.UNET_NR_FILT false
        let params0 := B.initF rng net
        let loaded : Except PyError ParamStore :=
          if hp.LOAD_WEIGHTS then
            match set_all_param_values params0 archive with
            | (_, some e) => Except.error (PyError.valueError e)
            | (ps, none) => Except.ok ps
          else Except.ok params0
        match loaded with
        | Except.error e => Except.error e
        | Except.ok ps =>
            Except.ok
              ⟨ps, net, train_fn B rng net hp.LEARNING_RATE, predict_fn B rng net,
               get_probs B rng net, hp.LEARNING_RATE⟩
  (result, rng)

/-- A trivial concrete backend, used to instantiate backend-quantified
theorems at closed inputs. -/
def B0 : Backend :=
  ⟨fun _ _ _ => ⟨[], fun _ => 0⟩, fun _ _ t => t, fun _ _ => [], fun p _ _ => p⟩

/-- A concrete configuration with an unrecognized resolution tag. -/
def hpUnknownRes : HP :=
  ⟨"Peaks", "combined", 2, "3mm", 4, false, 1⟩

/-- A concrete configuration with a recognized resolution and no weight
loading. -/
def hpNoLoad : HP :=
  ⟨"Peaks", "combined", 5, "2mm", 8, false, 1⟩

/-- A concrete configuration that requests weight loading. -/
def hpLoad : HP :=
  ⟨"Other", "single_direction", 2, "2mm", 4, true, 1⟩

/-- A Dice fraction `2·S1 / (Sp + St)` is in the unit interval whenever the
numerator sum is nonnegative and dominated by the denominator (with the
division-by-zero convention giving `0` for empty denominators). -/
theorem dice_frac_bounds (S1 Sp St : ℚ) (h0 : 0 ≤ S1) (h2 : 2 * S1 ≤ Sp + St) :
    0 ≤ 2 * S1 / (Sp + St) ∧ 2 * S1 / (Sp + St) ≤ 1 := by
  rcases eq_or_ne (Sp + St) 0 with hd | hd
  · rw [hd, div_zero]
    exact ⟨le_refl 0, zero_le_one⟩
  · have hpos : 0 < Sp + St := lt_of_le_of_ne (by linarith) (Ne.symm hd)
    constructor
    · exact div_nonneg (by linarith) hpos.le
    · rw [div_le_one hpos]
      linarith

/-- The continuous Dice score is in `[0, 1]` when the prediction entries are
probabilities and the label entries are binary. -/
theorem diceContinuousAt_mem_unit (P T : NDT)
    (hf : ∀ idx, 0 ≤ P.data idx ∧ P.data idx ≤ 1)
    (hg : ∀ idx, T.data idx = 0 ∨ T.data idx = 1) (i j : Nat) :
    0 ≤ diceContinuousAt P T i j ∧ diceContinuousAt P T i j ≤ 1 := by
  have hg0 : ∀ idx, 0 ≤ T.data idx := by
    intro idx
    rcases hg idx with h | h <;> simp [h]
  have hg1 : ∀ idx, T.data idx ≤ 1 := by
    intro idx
    rcases hg idx with h | h <;> simp [h]
  set h := P.shape.getD 2 0
  set w := P.shape.getD 3 0
  have h0 : 0 ≤ ∑ a ∈ Finset.range h, ∑ d ∈ Finset.range w,
      P.data [i, j, a, d] * T.data [i, j, a, d] :=
    Finset.sum_nonneg (fun a _ => Finset.sum_nonneg
      (fun d _ => mul_nonneg (hf [i, j, a, d]).1 (hg0 [i, j, a, d])))
  have hSp : (∑ a ∈ Finset.range h, ∑ d ∈ Finset.range w,
      P.data [i, j, a, d] * T.data [i, j, a, d])
      ≤ ∑ a ∈ Finset.range h, ∑ d ∈ Finset.range w, P.data [i, j, a, d] :=
    Finset.sum_le_sum (fun a _ => Finset.sum_le_sum
      (fun d _ => mul_le_of_le_one_right (hf [i, j, a, d]).1 (hg1 [i, j, a, d])))
  have hSt : (∑ a ∈ Finset.range h, ∑ d ∈ Finset.range w,
      P.data [i, j, a, d] * T.data [i, j, a, d])
      ≤ ∑ a ∈ Finset.range h, ∑ d ∈ Finset.range w, T.data [i, j, a, d] :=
    Finset.sum_le_sum (fun a _ => Finset.sum_le_sum
      (fun d _ => mul_le_of_le_one_left (hg0 [i, j, a, d]) (hf [i, j, a, d]).2))
  exact dice_frac_bounds _ _ _ h0 (by rw [two_mul]; exact add_le_add hSp hSt)

/-- The continuous Dice score of two pointwise-equal binary masks is `1` when
the mask is non-empty at the given instance and class. -/
theorem diceContinuousAt_identical (P T : NDT)
    (hpt : ∀ idx, P.data idx = T.data idx)
    (hg : ∀ idx, T.data idx = 0 ∨ T.data idx = 1) (i j : Nat)
    (hne : 0 < ∑ a ∈ Finset.range (P.shape.getD 2 0),
        ∑ d ∈ Finset.range (P.shape.getD 3 0), T.data [i, j, a, d]) :
    diceContinuousAt P T i j = 1 := by
  set h := P.shape.getD 2 0
  set w := P.shape.getD 3 0
  have hsq : ∀ idx, P.data idx * T.data idx = T.data idx := by
    intro idx
    rw [hpt idx]
    rcases hg idx with h1 | h1 <;> simp [h1]
  have e1 : (∑ a ∈ Finset.range h, ∑ d ∈ Finset.range w,
      P.data [i, j, a, d] * T.data [i, j, a, d])
      = ∑ a ∈ Finset.range h, ∑ d ∈ Finset.range w, T.data [i, j, a, d] :=
    Finset.sum_congr rfl (fun a _ => Finset.sum_congr rfl (fun d _ => hsq [i, j, a, d]))
  have e2 : (∑ a ∈ Finset.range h, ∑ d ∈ Finset.range w, P.data [i, j, a, d])
      = ∑ a ∈ Finset.range h, ∑ d ∈ Finset.range w, T.data [i, j, a, d] :=
    Finset.sum_congr rfl (fun a _ => Finset.sum_congr rfl (fun d _ => hpt [i, j, a, d]))
  show 2 * _ / _ = 1
  rw [e1, e2, div_eq_one_iff_eq (by positivity)]
  ring

/-- The continuous Dice score of two masks whose pointwise product vanishes at
the given instance and class is `0`. -/
theorem diceContinuousAt_disjoint (P T : NDT) (i j : Nat)
    (hdisj : ∀ a d, P.data [i, j, a, d] * T.data [i, j, a, d] = 0) :
    diceContinuousAt P T i j = 0 := by
  show 2 * _ / _ = 0
  rw [Finset.sum_congr rfl (fun a _ => Finset.sum_congr rfl (fun d _ => hdisj a d))]
  simp

/-- Thresholded values are in the unit interval. -/
theorem Tround_mem_unit (x : ℚ) : 0 ≤ Tround x ∧ Tround x ≤ 1 := by
  unfold Tround
  split <;> norm_num

/-- Thresholding fixes binary values. -/
theorem Tround_binary_fix (x : ℚ) (hx : x = 0 ∨ x = 1) : Tround x = x := by
  rcases hx with rfl | rfl <;> norm_num [Tround]

/-- In deterministic mode the forward value of a layer does not depend on the
random state: only the dropout branch reads it, and that branch is cut. -/
theorem evalLayerV_deterministic (B : Backend) (rng1 rng2 : RngState)
    (p : ParamStore) (X : NDT) (env : List (StageName × NDT)) (l : Layer) :
    evalLayerV B true rng1 p X env l = evalLayerV B true rng2 p X env l := rfl

/-- In deterministic mode the whole forward-pass environment does not depend
on the random state. -/
theorem get_output_env_deterministic (B : Backend) (rng1 rng2 : RngState)
    (p : ParamStore) (X : NDT) (net : List (StageName × Layer)) :
    ∀ env, get_output_env B true rng1 p X env net
      = get_output_env B true rng2 p X env net := by
  induction net with
  | nil => intro env; rfl
  | cons e rest ih =>
      intro env
      simp only [get_output_env]
      rw [evalLayerV_deterministic B rng1 rng2 p X env e.2]
      exact ih _

/-- Shapewise agreement forces equal lengths. -/
theorem shapesAgree_length : ∀ (ps : ParamStore) (vs : List PValue),
    shapesAgree ps vs = true → ps.length = vs.length := by
  intro ps
  induction ps with
  | nil =>
      intro vs h
      cases vs with
      | nil => rfl
      | cons v vs => simp [shapesAgree] at h
  | cons p ps ih =>
      intro vs h
      cases vs with
      | nil => simp [shapesAgree] at h
      | cons v vs =>
          by_cases hs : p.shape = v.shape
          · have h' : shapesAgree ps vs = true := by simpa [shapesAgree, hs] using h
            simp [List.length_cons, ih vs h']
          · simp [shapesAgree, hs] at h

/-- The sequential setter succeeds silently exactly on shapewise-agreeing
lists of equal length, and then replaces every parameter by its value. -/
theorem set_param_loop_spec : ∀ (ps : ParamStore) (vs : List PValue),
    ((set_param_loop ps vs).2 = none ∧ ps.length = vs.length ↔ shapesAgree ps vs = true)
    ∧ (shapesAgree ps vs = true → set_param_loop ps vs = (vs, none)) := by
  intro ps
  induction ps with
  | nil =>
      intro vs
      cases vs with
      | nil => simp [set_param_loop, shapesAgree]
      | cons v vs => simp [set_param_loop, shapesAgree]
  | cons p ps ih =>
      intro vs
      cases vs with
      | nil => simp [set_param_loop, shapesAgree]
      | cons v vs =>
          by_cases hs : p.shape = v.shape
          · have hnn : ¬(p.shape ≠ v.shape) := not_not_intro hs
            constructor
            · constructor
              · intro hh
                have hh2 : (set_param_loop ps vs).2 = none := by
                  have h1 := hh.1
                  simpa [set_param_loop, hnn] using h1
                have hlen : ps.length = vs.length := by
                  have h2 := hh.2
                  simpa using h2
                simpa [shapesAgree, hs] using ((ih vs).1).mp ⟨hh2, hlen⟩
              · intro hh
                have hh' : shapesAgree ps vs = true := by
                  simpa [shapesAgree, hs] using hh
                refine ⟨?_, ?_⟩
                · simp [set_param_loop, hnn, (ih vs).2 hh']
                · simp [shapesAgree_length ps vs hh']
            · intro hh
              have hh' : shapesAgree ps vs = true := by
                simpa [shapesAgree, hs] using hh
              simp [set_param_loop, hnn, (ih vs).2 hh']
          · constructor
            · constructor
              · intro hh
                have h1 := hh.1
                simp [set_param_loop, hs] at h1
              · intro hh
                simp [shapesAgree, hs] at hh
            · intro hh
              simp [shapesAgree, hs] at hh

/-- `set_all_param_values` raises no error exactly when the value list agrees
shapewise with the parameter list, in which case every parameter is set. -/
theorem set_all_param_values_spec (ps : ParamStore) (vs : List PValue) :
    ((set_all_param_values ps vs).2 = none ↔ shapesAgree ps vs = true)
    ∧ (shapesAgree ps vs = true → set_all_param_values ps vs = (vs, none)) := by
  unfold set_all_param_values
  by_cases hl : ps.length = vs.length
  · simp only [hl, ne_eq, not_true_eq_false, if_false]
    constructor
    · constructor
      · intro hh
        exact (set_param_loop_spec ps vs).1.mp ⟨hh, hl⟩
      · intro hh
        rw [(set_param_loop_spec ps vs).2 hh]
    · intro hh
      exact (set_param_loop_spec ps vs).2 hh
  · simp only [ne_eq, hl, not_false_eq_true, if_true]
    constructor
    · constructor
      · intro hh
        simp at hh
      · intro hh
        exact absurd (shapesAgree_length ps vs hh) hl
    · intro hh
      exact absurd (shapesAgree_length ps vs hh) hl

/-- C1: for both supported input resolutions (144x144 and 80x80) and every
number of output classes (and any input channel count, base filter count,
nonlinearity and dropout flag), the network built by `get_UNet` has a final
`output` stage of static shape `(batch, height, width, num_output_classes)`
with the spatial extents equal to the configured input extents; and at each of
the four skip-connection concatenations the two inputs already have equal
spatial extents, so the center crop does not alter the final output's spatial
size. -/
theorem unet_output_shape_matches_input_resolution
    (nIn nc nf : Nat) (nl : Nonlin) (dd : Bool) :
    (shapeOfStage (get_UNet nIn none nc Pad.same nl (144, 144) nf dd) StageName.output
        = some [none, some 144, some 144, some nc]
      ∧ spatialOfStage (get_UNet nIn none nc Pad.same nl (144, 144) nf dd) StageName.deconv1
          = spatialOfStage (get_UNet nIn none nc Pad.same nl (144, 144) nf dd) StageName.contr_4_2
      ∧ spatialOfStage (get_UNet nIn none nc Pad.same nl (144, 144) nf dd) StageName.deconv2
          = spatialOfStage (get_UNet nIn none nc Pad.same nl (144, 144) nf dd) StageName.contr_3_2
      ∧ spatialOfStage (get_UNet nIn none nc Pad.same nl (144, 144) nf dd) StageName.deconv3
          = spatialOfStage (get_UNet nIn none nc Pad.same nl (144, 144) nf dd) StageName.contr_2_2
      ∧ spatialOfStage (get_UNet nIn none nc Pad.same nl (144, 144) nf dd) StageName.deconv4
          = spatialOfStage (get_UNet nIn none nc Pad.same nl (144, 144) nf dd) StageName.contr_1_2)
    ∧ (shapeOfStage (get_UNet nIn none nc Pad.same nl (80, 80) nf dd) StageName.output
        = some [none, some 80, some 80, some nc]
      ∧ spatialOfStage (get_UNet nIn none nc Pad.same nl (80, 80) nf dd) StageName.deconv1
          = spatialOfStage (get_UNet nIn none nc Pad.same nl (80, 80) nf dd) StageName.contr_4_2
      ∧ spatialOfStage (get_UNet nIn none nc Pad.same nl (80, 80) nf dd) StageName.deconv2
          = spatialOfStage (get_UNet nIn none nc Pad.same nl (80, 80) nf dd) StageName.contr_3_2
      ∧ spatialOfStage (get_UNet nIn none nc Pad.same nl (80, 80) nf dd) StageName.deconv3
          = spatialOfStage (get_UNet nIn none nc Pad.same nl (80, 80) nf dd) StageName.contr_2_2
      ∧ spatialOfStage (get_UNet nIn none nc Pad.same nl (80, 80) nf dd) StageName.deconv4
          = spatialOfStage (get_UNet nIn none nc Pad.same nl (80, 80) nf dd) StageName.contr_1_2) :=
  ⟨⟨rfl, rfl, rfl, rfl, rfl⟩, ⟨rfl, rfl, rfl, rfl, rfl⟩⟩

/-- C2: the training loss of the graph equals one minus the mean, over the
batch axis and the class axis, of the continuous per-instance per-class Dice
scores of the training-mode output (the spec-side formula written without the
dimshuffle step), the evaluation loss is the same formula on the test-mode
output, and those losses are exactly the first output of the compiled
`train_fn` on the training-mode forward pass and of `predict_fn` on the
test-mode forward pass. -/
theorem loss_is_one_minus_mean_continuous_dice
    (b h w c : Nat) (f g : List Nat → ℚ) (B : Backend) (rng : RngState)
    (net : List (StageName × Layer)) (lr : ℚ) (p : ParamStore) (X y : NDT) :
    loss_train ⟨[b, h, w, c], f⟩ ⟨[b, c, h, w], g⟩
      = 1 - specMeanContinuousDice ⟨[b, h, w, c], f⟩ ⟨[b, c, h, w], g⟩
    ∧ loss_test ⟨[b, h, w, c], f⟩ ⟨[b, c, h, w], g⟩
      = 1 - specMeanContinuousDice ⟨[b, h, w, c], f⟩ ⟨[b, c, h, w], g⟩
    ∧ ((train_fn B rng net lr).outExpr p (X, y)).1
      = loss_train (get_output B net StageName.output X false rng p) y
    ∧ ((predict_fn B rng net).outExpr p (X, y)).1
      = loss_test (get_output B net StageName.output X true rng p) y := by
  refine ⟨?_, ?_, rfl, rfl⟩ <;>
    simp [loss_train, loss_test, f1_train_continuous, f1_test_continuous,
      dice_scores_train_continuous, dice_scores_test_continuous,
      theano_binary_dice_per_instance_and_class_for_loss, dimshuffle_0_3_1_2,
      Tmean, sumOver, specMeanContinuousDice, specDiceContinuous, diceContinuousAt]

/-- C3 counterexample: loading an archive whose second array has the wrong
shape raises the error, but the first parameter of the graph has already been
overwritten with the archive value `[7, 8]` while the second keeps its old
value `[0, 0, 0]` — a parameter of the graph is left holding a loaded value
while another is not, contradicting the claim's no-partial-initialisation
clause. -/
theorem set_all_param_values_incomplete_load_counterexample :
    (set_all_param_values
        [⟨[2], [0, 0]⟩, ⟨[3], [0, 0, 0]⟩]
        [⟨[2], [7, 8]⟩, ⟨[4], [1, 2, 3, 4]⟩]).2.isSome = true
    ∧ (set_all_param_values
        [⟨[2], [0, 0]⟩, ⟨[3], [0, 0, 0]⟩]
        [⟨[2], [7, 8]⟩, ⟨[4], [1, 2, 3, 4]⟩]).1
      = [⟨[2], [7, 8]⟩, ⟨[3], [0, 0, 0]⟩] := by
  constructor <;> rfl

/-- C3 (amended): weight loading fails loudly on any mismatch — it succeeds
silently exactly when the archive agrees shapewise with the graph's parameter
list; a wrong count raises before any parameter is set; full agreement sets
every parameter; and under `LOAD_WEIGHTS` a mismatching archive makes
`create_network` raise instead of returning a model.  (On a shape mismatch at
a later position the parameters before it have already been overwritten; see
the counterexample.) -/
theorem weight_loading_mismatch_fails_loudly :
    (∀ (ps : ParamStore) (vs : List PValue),
      (set_all_param_values ps vs).2 = none ↔ shapesAgree ps vs = true)
    ∧ (∀ (ps : ParamStore) (vs : List PValue), ps.length ≠ vs.length →
        set_all_param_values ps vs
          = (ps, some "mismatch: got a different number of values than parameters"))
    ∧ (∀ (ps : ParamStore) (vs : List PValue), shapesAgree ps vs = true →
        set_all_param_values ps vs = (vs, none))
    ∧ (∀ (B : Backend) (hp : HP) (archive : List PValue) (g : RngState)
        (input_dim : Nat × Nat),
        resolution_input_dim hp.RESOLUTION = some input_dim →
        hp.LOAD_WEIGHTS = true →
        shapesAgree
          (B.initF (mkRandomState 1)
            (get_UNet (NR_OF_GRADIENTS hp) none hp.NR_OF_CLASSES Pad.same
              Nonlin.rectify input_dim hp.UNET_NR_FILT false)) archive = false →
        ∃ e, (create_network B hp archive g).1 = Except.error e) := by
  refine ⟨fun ps vs => (set_all_param_values_spec ps vs).1,
    fun ps vs h => by simp [set_all_param_values, h],
    fun ps vs h => (set_all_param_values_spec ps vs).2 h, ?_⟩
  intro B hp archive g input_dim hres hlw hsa
  rcases hsp : set_all_param_values
      (B.initF (mkRandomState 1)
        (get_UNet (NR_OF_GRADIENTS hp) none hp.NR_OF_CLASSES Pad.same
          Nonlin.rectify input_dim hp.UNET_NR_FILT false)) archive with ⟨ps2, err⟩
  cases err with
  | none =>
      have hiff := (set_all_param_values_spec
        (B.initF (mkRandomState 1)
          (get_UNet (NR_OF_GRADIENTS hp) none hp.NR_OF_CLASSES Pad.same
            Nonlin.rectify input_dim hp.UNET_NR_FILT false)) archive).1
      rw [hsp] at hiff
      simp at hiff
      rw [hiff] at hsa
      simp at hsa
  | some e =>
      refine ⟨PyError.valueError e, ?_⟩
      simp only [create_network, hres, hlw, hsp]
      simp

/-- C3 witness: the amended theorem applied at concrete stores — a count
mismatch returns the untouched store with the count error, full agreement
sets the parameter, and a build with a mismatching archive errors out. -/
theorem weight_loading_mismatch_fails_loudly_witness :
    set_all_param_values [⟨[2], [0, 0]⟩] [⟨[2], [5, 5]⟩, ⟨[2], [6, 6]⟩]
      = ([⟨[2], [0, 0]⟩], some "mismatch: got a different number of values than parameters")
    ∧ set_all_param_values [⟨[2], [0, 0]⟩] [⟨[2], [5, 5]⟩] = ([⟨[2], [5, 5]⟩], none)
    ∧ ∃ e, (create_network B0 hpLoad [⟨[9], [1]⟩] (mkRandomState 7)).1 = Except.error e :=
  ⟨weight_loading_mismatch_fails_loudly.2.1 _ _ (by decide),
   weight_loading_mismatch_fails_loudly.2.2.1 _ _ (by decide),
   weight_loading_mismatch_fails_loudly.2.2.2 B0 hpLoad [⟨[9], [1]⟩] (mkRandomState 7)
     (80, 80) (by decide) rfl rfl⟩

/-- C4: for every configuration whose resolution tag is none of `1.25mm`,
`2mm`, `2.5mm`, `create_network` raises (the unbound-local error on
`input_dim`, surfacing at the `get_UNet` call) before any layer of the network
is built, rather than proceeding with an undefined spatial size. -/
theorem unsupported_resolution_raises_before_building
    (B : Backend) (hp : HP) (archive : List PValue) (g : RngState)
    (h1 : hp.RESOLUTION ≠ "1.25mm") (h2 : hp.RESOLUTION ≠ "2mm")
    (h3 : hp.RESOLUTION ≠ "2.5mm") :
    (create_network B hp archive g).1 = Except.error (PyError.nameError "input_dim") := by
  have hd : resolution_input_dim hp.RESOLUTION = none := by
    simp [resolution_input_dim, h1, h2, h3]
  simp [create_network, hd]

/-- C4 witness: a build with the unrecognized tag `3mm` errors out. -/
theorem unsupported_resolution_raises_before_building_witness :
    (create_network B0 hpUnknownRes [] (mkRandomState 5)).1
      = Except.error (PyError.nameError "input_dim") :=
  unsupported_resolution_raises_before_building B0 hpUnknownRes [] (mkRandomState 5)
    (by decide) (by decide) (by decide)

/-- C5: two `get_UNet` calls agreeing on all arguments except `do_dropout`
build identical layer graphs — the flag is never read — and the bottleneck
dropout layer with rate `0.4` is present unconditionally as the input of
`encode_1`. -/
theorem do_dropout_flag_has_no_effect
    (nIn : Nat) (bs : Option Nat) (nc : Nat) (pad : Pad) (nl : Nonlin)
    (dim : Nat × Nat) (nf : Nat) :
    get_UNet nIn bs nc pad nl dim nf true = get_UNet nIn bs nc pad nl dim nf false
    ∧ lookupName (get_UNet nIn bs nc pad nl dim nf false) StageName.encode_1
        = some (Layer.conv (Ref.anonDropout StageName.pool4 (2 / 5)) (nf * 16) 3 nl pad) :=
  ⟨rfl, rfl⟩

/-- C6: the compiled `predict_fn` has no update expressions attached, calling
it leaves every parameter of the store unchanged, and its outputs are built in
deterministic (inference) mode with dropout disabled, so they do not depend on
the random state — `predict_fn` is a pure function of the inputs and the
current parameter values. -/
theorem predict_fn_no_updates_and_deterministic
    (B : Backend) (rng rng2 : RngState) (net : List (StageName × Layer))
    (p : ParamStore) (X y : NDT) :
    (predict_fn B rng net).updates = none
    ∧ (TheanoFn.call (predict_fn B rng net) p (X, y)).2 = p
    ∧ predict_fn B rng net = predict_fn B rng2 net := by
  refine ⟨rfl, rfl, ?_⟩
  simp only [predict_fn, TheanoFn.mk.injEq, and_true]
  funext q Xy
  simp only [get_output]
  rw [get_output_env_deterministic B rng rng2 q Xy.1 net []]

/-- C7: building the model overwrites the ambient global random state with
`RandomState(1)` before any layer is constructed, so the build result — the
initial parameter values and the compiled functions, hence the outputs on any
input — does not depend on the ambient state: two builds with identical
configuration are identical, and the state after a build is always the fixed
seeded one. -/
theorem build_reseeds_rng_and_is_reproducible
    (B : Backend) (hp : HP) (archive : List PValue) (g1 g2 : RngState) :
    create_network B hp archive g1 = create_network B hp archive g2
    ∧ (create_network B hp archive g1).2 = mkRandomState 1 :=
  ⟨rfl, rfl⟩

/-- C8: for probability predictions and binary labels, the per-instance
per-class Dice scores of both the continuous and the thresholded variant lie
in `[0, 1]` (the all-zero and all-one degenerate cases included, with the
division convention `0 / 0 = 0`); two identical non-empty binary masks score
`1` and two disjoint masks score `0`, in both variants. -/
theorem dice_scores_bounded_and_boundary_values
    (b c h w : Nat) (f g : List Nat → ℚ) (i j : Nat)
    (hf : ∀ idx, 0 ≤ f idx ∧ f idx ≤ 1)
    (hg : ∀ idx, g idx = 0 ∨ g idx = 1) :
    (0 ≤ (theano_binary_dice_per_instance_and_class_for_loss
          ⟨[b, c, h, w], f⟩ ⟨[b, c, h, w], g⟩).data [i, j]
      ∧ (theano_binary_dice_per_instance_and_class_for_loss
          ⟨[b, c, h, w], f⟩ ⟨[b, c, h, w], g⟩).data [i, j] ≤ 1)
    ∧ (0 ≤ (theano_binary_dice_per_instance_and_class
          ⟨[b, c, h, w], f⟩ ⟨[b, c, h, w], g⟩).data [i, j]
      ∧ (theano_binary_dice_per_instance_and_class
          ⟨[b, c, h, w], f⟩ ⟨[b, c, h, w], g⟩).data [i, j] ≤ 1)
    ∧ ((∀ idx, f idx = g idx) →
        (0 < ∑ a ∈ Finset.range h, ∑ d ∈ Finset.range w, g [i, j, a, d]) →
        (theano_binary_dice_per_instance_and_class_for_loss
            ⟨[b, c, h, w], f⟩ ⟨[b, c, h, w], g⟩).data [i, j] = 1
          ∧ (theano_binary_dice_per_instance_and_class
              ⟨[b, c, h, w], f⟩ ⟨[b, c, h, w], g⟩).data [i, j] = 1)
    ∧ ((∀ a d, f [i, j, a, d] * g [i, j, a, d] = 0) →
        (theano_binary_dice_per_instance_and_class_for_loss
            ⟨[b, c, h, w], f⟩ ⟨[b, c, h, w], g⟩).data [i, j] = 0
          ∧ (theano_binary_dice_per_instance_and_class
              ⟨[b, c, h, w], f⟩ ⟨[b, c, h, w], g⟩).data [i, j] = 0) := by
  refine ⟨?_, ?_, ?_, ?_⟩
  · exact diceContinuousAt_mem_unit ⟨[b, c, h, w], f⟩ ⟨[b, c, h, w], g⟩ hf hg i j
  · exact diceContinuousAt_mem_unit ⟨[b, c, h, w], fun idx => Tround (f idx)⟩
      ⟨[b, c, h, w], g⟩ (fun idx => Tround_mem_unit (f idx)) hg i j
  · intro hfg hne
    constructor
    · exact diceContinuousAt_identical ⟨[b, c, h, w], f⟩ ⟨[b, c, h, w], g⟩ hfg hg i j hne
    · exact diceContinuousAt_identical ⟨[b, c, h, w], fun idx => Tround (f idx)⟩
        ⟨[b, c, h, w], g⟩
        (fun idx => by
          show Tround (f idx) = g idx
          rw [hfg idx, Tround_binary_fix (g idx) (hg idx)]) hg i j hne
  · intro hdisj
    constructor
    · exact diceContinuousAt_disjoint ⟨[b, c, h, w], f⟩ ⟨[b, c, h, w], g⟩ i j hdisj
    · refine diceContinuousAt_disjoint ⟨[b, c, h, w], fun idx => Tround (f idx)⟩
        ⟨[b, c, h, w], g⟩ i j (fun a d => ?_)
      show Tround (f [i, j, a, d]) * g [i, j, a, d] = 0
      rcases mul_eq_zero.mp (hdisj a d) with h1 | h1
      · rw [h1]
        norm_num [Tround]
      · rw [h1, mul_zero]

/-- C8 witness: the bounds at the all-one prediction and label of a 1x1x1x1
tensor. -/
theorem dice_scores_bounded_and_boundary_values_witness :
    0 ≤ (theano_binary_dice_per_instance_and_class_for_loss
        ⟨[1, 1, 1, 1], fun _ => 1⟩ ⟨[1, 1, 1, 1], fun _ => 1⟩).data [0, 0]
    ∧ (theano_binary_dice_per_instance_and_class_for_loss
        ⟨[1, 1, 1, 1], fun _ => 1⟩ ⟨[1, 1, 1, 1], fun _ => 1⟩).data [0, 0] ≤ 1 :=
  (dice_scores_bounded_and_boundary_values 1 1 1 1 (fun _ => 1) (fun _ => 1) 0 0
    (fun _ => ⟨zero_le_one, le_refl 1⟩) (fun _ => Or.inr rfl)).1

/-- C9: the layer graph built by `get_UNet` is a genuine insertion-ordered
mapping — no stage name occurs twice — and every layer refers (by stage name,
or through the held anonymous dropout) only to stages inserted earlier. -/
theorem layer_graph_references_only_earlier_stages
    (nIn : Nat) (bs : Option Nat) (nc : Nat) (pad : Pad) (nl : Nonlin)
    (dim : Nat × Nat) (nf : Nat) (dd : Bool) :
    wellOrderedGraph [] (get_UNet nIn bs nc pad nl dim nf dd) = true
    ∧ namesUnique ((get_UNet nIn bs nc pad nl dim nf dd).map Prod.fst) = true :=
  ⟨rfl, rfl⟩

/-- C10: the input channel count is 9 for Peaks with single_direction mode,
three times the class count for Peaks with combined mode, and 33 otherwise;
and for every recognized resolution (without weight loading) the network that
`create_network` builds has exactly that channel extent on the channel axis of
its input stage. -/
theorem input_channels_determined_by_config
    (hp : HP) (B : Backend) (archive : List PValue) (g : RngState)
    (h1 : hp.RESOLUTION = "1.25mm" ∨ hp.RESOLUTION = "2mm" ∨ hp.RESOLUTION = "2.5mm")
    (h2 : hp.LOAD_WEIGHTS = false) :
    NR_OF_GRADIENTS hp
      = (if hp.SEG_INPUT = "Peaks" ∧ hp.TYPE = "single_direction" then 9
         else if hp.SEG_INPUT = "Peaks" ∧ hp.TYPE = "combined" then 3 * hp.NR_OF_CLASSES
         else 33)
    ∧ ∃ (m : Model) (d : Nat × Nat),
        resolution_input_dim hp.RESOLUTION = some d
        ∧ (create_network B hp archive g).1 = Except.ok m
        ∧ lookupName m.net StageName.input
            = some (Layer.inputL
                [none, some (NR_OF_GRADIENTS hp), some d.1, some d.2]) := by
  constructor
  · simp [NR_OF_GRADIENTS, Bool.and_eq_true, beq_iff_eq]
  · rcases h1 with hres | hres | hres
    · have hd : resolution_input_dim hp.RESOLUTION = some (144, 144) := by
        simp [resolution_input_dim, hres]
      rcases hcn : (create_network B hp archive g).1 with e | m
      · rw [create_network] at hcn
        simp only [hd, h2, Bool.false_eq_true, if_false] at hcn
        simp at hcn
      · have hcn2 := hcn
        rw [create_network] at hcn2
        simp only [hd, h2, Bool.false_eq_true, if_false, Except.ok.injEq] at hcn2
        refine ⟨m, (144, 144), hd, rfl, ?_⟩
        subst hcn2
        rfl
    · have hd : resolution_input_dim hp.RESOLUTION = some (80, 80) := by
        simp [resolution_input_dim, hres]
      rcases hcn : (create_network B hp archive g).1 with e | m
      · rw [create_network] at hcn
        simp only [hd, h2, Bool.false_eq_true, if_false] at hcn
        simp at hcn
      · have hcn2 := hcn
        rw [create_network] at hcn2
        simp only [hd, h2, Bool.false_eq_true, if_false, Except.ok.injEq] at hcn2
        refine ⟨m, (80, 80), hd, rfl, ?_⟩
        subst hcn2
        rfl
    · have hd : resolution_input_dim hp.RESOLUTION = some (80, 80) := by
        simp [resolution_input_dim, hres]
      rcases hcn : (create_network B hp archive g).1 with e | m
      · rw [create_network] at hcn
        simp only [hd, h2, Bool.false_eq_true, if_false] at hcn
        simp at hcn
      · have hcn2 := hcn
        rw [create_network] at hcn2
        simp only [hd, h2, Bool.false_eq_true, if_false, Except.ok.injEq] at hcn2
        refine ⟨m, (80, 80), hd, rfl, ?_⟩
        subst hcn2
        rfl

/-- C10 witness: a Peaks/combined configuration at resolution `2mm` with 5
classes builds a network whose input stage has 15 channels. -/
theorem input_channels_determined_by_config_witness :
    NR_OF_GRADIENTS hpNoLoad
      = (if hpNoLoad.SEG_INPUT = "Peaks" ∧ hpNoLoad.TYPE = "single_direction" then 9
         else if hpNoLoad.SEG_INPUT = "Peaks" ∧ hpNoLoad.TYPE = "combined"
           then 3 * hpNoLoad.NR_OF_CLASSES else 33)
    ∧ ∃ (m : Model) (d : Nat × Nat),
        resolution_input_dim hpNoLoad.RESOLUTION = some d
        ∧ (create_network B0 hpNoLoad [] (mkRandomState 3)).1 = Except.ok m
        ∧ lookupName m.net StageName.input
            = some (Layer.inputL
                [none, some (NR_OF_GRADIENTS hpNoLoad), some d.1, some d.2]) :=
  input_channels_determined_by_config hpNoLoad B0 [] (mkRandomState 3)
    (Or.inr (Or.inl rfl)) rfl

end TractSeg
